import Mathlib

/-!
Shallow embedding of the tile-pipeline of the Playing-God repository:
cache manager (`cache_manager.py`), tile fetcher (`tile_fetcher.py`),
background loader (`background_loader.py`), per-frame batch loading
(`map_manager.py`), tile addressing (`tile_renderer.py`,
`tile_scaling.py`) and the viewport transforms
(`managers/viewport_manager.py`).

Decoded pygame surfaces are opaque values, modelled as natural numbers;
raw tile bytes are lists of bytes; tile keys are the `(x, y, zoom)`
integer triples used throughout the code.  Fallible operations
(disk I/O, image decoding, HTTP fetches) return `Option`, and the
external circumstances the Python runtime supplies (whether the disk
write raises, what the HTTP response is, what `time.time()` returns)
are explicit parameters.
-/

/-- An opaque decoded tile surface (`pygame.Surface`). -/
abbrev Tile := Nat

/-- Raw tile bytes as received from the network / stored on disk. -/
abbrev Bytes := List Nat

/-- A tile key `(x, y, zoom)` as used by `CacheManager` and friends. -/
abbrev TileKey := Int × Int × Int

/-- Lookup in an association list, most recent binding first.  Models a
Python `dict` (and the disk directory viewed as a key-to-bytes map):
later insertions shadow earlier ones. -/
def alist_lookup {α : Type} (l : List (TileKey × α)) (k : TileKey) : Option α :=
  match l with
  | [] => none
  | p :: rest => if p.1 = k then some p.2 else alist_lookup rest k

/-- The two cache tiers of `CacheManager`: the in-process
`memory_cache` dict and the on-disk cache directory, each keyed by
`(x, y, zoom)`. -/
structure CacheState where
  memory : List (TileKey × Tile)
  disk : List (TileKey × Bytes)
deriving DecidableEq

/-- A cache with both tiers empty. -/
def emptyCache : CacheState := ⟨[], []⟩

/-- `CacheManager.get_from_memory`: a pure dict lookup, no I/O. -/
def get_from_memory (st : CacheState) (k : TileKey) : Option Tile :=
  alist_lookup st.memory k

/-- `CacheManager.get_from_disk`: if the cache file exists, decode it
with `pygame.image.load`; on success insert the surface into the
memory cache and return it; a decode exception is caught and `None`
is returned with the state unchanged.  `decode` stands for
`pygame.image.load`, returning `none` when it raises. -/
def get_from_disk (decode : Bytes → Option Tile) (st : CacheState) (k : TileKey) :
    Option Tile × CacheState :=
  match alist_lookup st.disk k with
  | none => (none, st)
  | some data =>
    match decode data with
    | some surface => (some surface, { st with memory := (k, surface) :: st.memory })
    | none => (none, st)

/-- `CacheManager.save_to_cache`: one `try` block first writes the raw
bytes to the cache file, then decodes them and inserts the surface into
the memory cache, returning the surface.  Any exception (modelled by
`diskWriteOk = false` for the file write, `decode data = none` for the
decode) jumps to the handler, which returns `None`; state mutations
already performed before the exception are kept. -/
def save_to_cache (decode : Bytes → Option Tile) (diskWriteOk : Bool)
    (st : CacheState) (k : TileKey) (data : Bytes) : Option Tile × CacheState :=
  if diskWriteOk then
    let st1 : CacheState := { st with disk := (k, data) :: st.disk }
    match decode data with
    | some surface => (some surface, { st1 with memory := (k, surface) :: st1.memory })
    | none => (none, st1)
  else
    (none, st)

/-- The cache-lookup portion of `MapManager.fetch_tile`: try the memory
cache first (no I/O), then the disk cache.  The boolean records whether
the disk tier was consulted. -/
def fetch_tile_lookup (decode : Bytes → Option Tile) (st : CacheState) (k : TileKey) :
    Option Tile × CacheState × Bool :=
  match get_from_memory st k with
  | some tile => (some tile, st, false)
  | none =>
    let res := get_from_disk decode st k
    (res.1, res.2, true)

/-- `TileFetcher.is_rate_limited` with ceiling `maxr`
(`max_requests_per_second`, default 2): reassigns `request_times` to the
timestamps `t` with `now - t < 1.0` and returns whether at least `maxr`
remain.  `now` stands for the value of `time.time()` at the call. -/
def is_rate_limited (times : List ℚ) (now : ℚ) (maxr : ℕ) : Bool × List ℚ :=
  let pruned := times.filter (fun t => now - t < 1)
  (decide (maxr ≤ pruned.length), pruned)

/-- `TileFetcher.fetch_tile_data`: inside one `try`, perform the HTTP
request; `response = none` models a transport failure (any exception,
caught and logged), `some (status, body)` a completed response.  On
status 200 the body is read, `time.time()` (here `now`) is appended to
`request_times`, and the body is returned; otherwise control falls
through and `None` is returned with `request_times` untouched. -/
def fetch_tile_data (times : List ℚ) (now : ℚ) (response : Option (ℕ × Bytes)) :
    Option Bytes × List ℚ :=
  match response with
  | none => (none, times)
  | some (status, body) =>
    if status = 200 then (some body, times ++ [now]) else (none, times)

/-- `BackgroundLoader.preload_surrounding_tiles`: the double loop
`for dy in [-1, 0, 1]: for dx in [-1, 0, 1]:` adding
`(center_x + dx, center_y + dy, zoom)` to the `loading_queue` set. -/
def preload_surrounding_tiles (queue : Finset TileKey) (cx cy zoom : ℤ) :
    Finset TileKey :=
  ([-1, 0, 1] : List ℤ).foldl
    (fun q dy =>
      ([-1, 0, 1] : List ℤ).foldl
        (fun q2 dx => insert (cx + dx, cy + dy, zoom) q2) q)
    queue

/-- One entry of a per-frame load batch: its tile key, the instant
(seconds after the batch is issued) at which its `fetch_tile` coroutine
completes, and the value that coroutine returns on completion. -/
structure TileTask where
  coord : TileKey
  time : ℚ
  result : Option Tile
deriving DecidableEq

/-- `MapManager.TILE_LOAD_TIMEOUT` (0.01 seconds). -/
def TILE_LOAD_TIMEOUT : ℚ := 1 / 100

/-- `MapManager._load_tile_batch`: `asyncio.gather` preserves task
order, so the gathered list is the per-task results in batch order. -/
def load_tile_batch (batch : List TileTask) : List (Option Tile) :=
  batch.map TileTask.result

/-- The instant at which the `asyncio.gather` future of
`_load_tile_batch` completes: the fan-out tasks run concurrently, so the
gather resolves when the last of them does. -/
def gather_completion_time (batch : List TileTask) : ℚ :=
  (batch.map TileTask.time).foldr max 0

/-- `future.result(timeout=TILE_LOAD_TIMEOUT)` in
`MapManager._handle_async_tile_loading`: the whole gathered list if the
gather completes within the timeout, otherwise `none`
(`concurrent.futures.TimeoutError`). -/
def future_result (batch : List TileTask) (timeout : ℚ) :
    Option (List (Option Tile)) :=
  if gather_completion_time batch ≤ timeout then some (load_tile_batch batch) else none

/-- `MapManager._render_loaded_tiles`: zip results with their
coordinates and blit every non-`None` surface.  The returned list is
the (coordinate, surface) pairs drawn this frame, in order. -/
def render_loaded_tiles (tiles : List (Option Tile)) (coords : List TileKey) :
    List (TileKey × Tile) :=
  (tiles.zip coords).filterMap (fun p => Option.map (fun t => (p.2, t)) p.1)

/-- `MapManager._handle_async_tile_loading`: wait on the batch future up
to the fixed timeout; on success render the loaded tiles; on
`TimeoutError` do nothing (`pass`) — no tile is rendered and no failure
is recorded. -/
def handle_async_tile_loading (batch : List TileTask) (timeout : ℚ) :
    List (TileKey × Tile) :=
  match future_result batch timeout with
  | some tiles => render_loaded_tiles tiles (batch.map TileTask.coord)
  | none => []

/-- The miss-collection side of `MapManager._process_tile`, applied over
a frame: each visible tile absent from the memory cache is appended to
`tiles_to_load`, so the batch requested in a frame is the visible tiles
that miss the memory cache.  No other state decides membership: a tile
skipped by a previous frame timeout is re-requested like any miss. -/
def frame_tiles_to_load (visible : List TileKey) (memory : List (TileKey × Tile)) :
    List TileKey :=
  visible.filter (fun c => (alist_lookup memory c).isNone)

/-- `ViewportState` from `managers/viewport_manager.py`: window size,
camera position in world space, and zoom.  Width and height are ints in
the code; they are carried as rationals here because the code divides
them by the zoom and halves them. -/
structure ViewportState where
  width : ℚ
  height : ℚ
  world_x : ℚ
  world_y : ℚ
  zoom : ℚ
deriving DecidableEq

/-- `ViewportState.bounds` / `ViewportManager.get_visible_bounds`:
`(left, top, right, bottom)` of the viewport in world space. -/
def visible_bounds (st : ViewportState) : ℚ × ℚ × ℚ × ℚ :=
  let world_width := st.width / st.zoom
  let world_height := st.height / st.zoom
  (st.world_x - world_width / 2, st.world_y - world_height / 2,
   st.world_x + world_width / 2, st.world_y + world_height / 2)

/-- `ViewportManager.world_to_screen`. -/
def world_to_screen (st : ViewportState) (world_x world_y : ℚ) : ℚ × ℚ :=
  let rel_x := world_x - st.world_x
  let rel_y := world_y - st.world_y
  (rel_x * st.zoom + st.width / 2, rel_y * st.zoom + st.height / 2)

/-- `ViewportManager.screen_to_world`. -/
def screen_to_world (st : ViewportState) (screen_x screen_y : ℚ) : ℚ × ℚ :=
  let centered_x := screen_x - st.width / 2
  let centered_y := screen_y - st.height / 2
  (centered_x / st.zoom + st.world_x, centered_y / st.zoom + st.world_y)

/-- `TileScalingManager.get_tile_size`:
`base_tile_size * (1 / 2) ** (tile_zoom - 1)`, with a Python int
exponent (negative exponents yield reciprocals, hence `zpow`). -/
def get_tile_size (base_tile_size : ℚ) (tile_zoom : ℤ) : ℚ :=
  base_tile_size * (1 / 2 : ℚ) ^ (tile_zoom - 1)

/-- `TileRenderer.BUFFER_TILES`. -/
def BUFFER_TILES : ℤ := 2

/-- The `start_x / start_y / end_x / end_y` computation of
`TileRenderer.calculate_visible_tiles`, with the buffer abstracted as a
parameter (the code always passes `BUFFER_TILES`): floor the left/top
bound divided by the tile size minus the buffer, ceil the right/bottom
bound divided by the tile size plus the buffer. -/
def visible_tile_range (st : ViewportState) (tile_zoom : ℤ) (buffer : ℤ) :
    ℤ × ℤ × ℤ × ℤ :=
  let b := visible_bounds st
  let ts := get_tile_size 256 tile_zoom
  (⌊b.1 / ts⌋ - buffer, ⌊b.2.1 / ts⌋ - buffer,
   ⌈b.2.2.1 / ts⌉ + buffer, ⌈b.2.2.2 / ts⌉ + buffer)

/-- The integers from `a` (inclusive) to `b` (exclusive): Python
`range(a, b)`. -/
def intRange (a b : ℤ) : List ℤ :=
  (List.range (b - a).toNat).map (fun (i : ℕ) => a + (i : ℤ))

/-- `TileRenderer.calculate_visible_tiles`: the list comprehension
`[(x, y, tile_zoom) for y in range(start_y, end_y) for x in
range(start_x, end_x)]` over the buffered tile range. -/
def calculate_visible_tiles (st : ViewportState) (tile_zoom : ℤ) (buffer : ℤ) :
    List TileKey :=
  let r := visible_tile_range st tile_zoom buffer
  (intRange r.2.1 r.2.2.2).bind
    (fun y => (intRange r.1 r.2.2.1).map (fun x => (x, y, tile_zoom)))

/-- Width in tiles of a `(start_x, start_y, end_x, end_y)` range. -/
def range_width (r : ℤ × ℤ × ℤ × ℤ) : ℤ := r.2.2.1 - r.1

/-- Height in tiles of a `(start_x, start_y, end_x, end_y)` range. -/
def range_height (r : ℤ × ℤ × ℤ × ℤ) : ℤ := r.2.2.2 - r.2.1

/-- Python `int()` applied to a float: truncation toward zero. -/
def int_trunc (q : ℚ) : ℤ :=
  if 0 ≤ q then ⌊q⌋ else -⌊-q⌋

/-- Python `%` on reals with nonzero divisor (floored modulo). -/
def pymod (a b : ℚ) : ℚ := a - b * ⌊a / b⌋

/-- `MapManager.update` / `MapRenderer.update_zoom`:
`tile_zoom = int(zoom)` then `zoom % tile_zoom`.  When `int(zoom) = 0`
the modulo raises `ZeroDivisionError`, modelled by `none`; otherwise the
pair `(tile_zoom, zoom % tile_zoom)` is stored. -/
def update_zoom (zoom : ℚ) : Option (ℤ × ℚ) :=
  let tile_zoom := int_trunc zoom
  if tile_zoom = 0 then none
  else some (tile_zoom, pymod zoom (tile_zoom : ℚ))

/-- `TileScalingManager.get_world_coordinates`:
`(tile_x * base_tile_size, tile_y * base_tile_size)`. -/
def get_world_coordinates (base_tile_size : ℚ) (tile_x tile_y : ℤ) : ℚ × ℚ :=
  ((tile_x : ℚ) * base_tile_size, (tile_y : ℚ) * base_tile_size)

/-- `TileRenderer.get_screen_position`: world coordinates of the tile
from the scaling manager, rescaled by `(1 / 2) ** (zoom - 1)`, then the
inlined camera transform (relative position, times zoom, plus half the
window size). -/
def get_screen_position (st : ViewportState) (tile_x tile_y : ℤ) (zoom : ℤ) :
    ℚ × ℚ :=
  let w := get_world_coordinates 256 tile_x tile_y
  let world_x := w.1 * (1 / 2 : ℚ) ^ (zoom - 1)
  let world_y := w.2 * (1 / 2 : ℚ) ^ (zoom - 1)
  let rel_x := world_x - st.world_x
  let rel_y := world_y - st.world_y
  (rel_x * st.zoom + st.width / 2, rel_y * st.zoom + st.height / 2)

/-- Scenario D batch: five tiles issued in one frame, of which the
first three resolve (with surfaces 10, 11, 12) within the 10 ms frame
timeout and the last two are still pending when it elapses. -/
def exBatch : List TileTask :=
  [⟨(0, 0, 1), 1 / 1000, some 10⟩, ⟨(1, 0, 1), 2 / 1000, some 11⟩,
   ⟨(2, 0, 1), 3 / 1000, some 12⟩, ⟨(3, 0, 1), 2 / 100, none⟩,
   ⟨(4, 0, 1), 3 / 100, none⟩]

/-- The visible tile keys of the scenario frame. -/
def exVisible : List TileKey :=
  [(0, 0, 1), (1, 0, 1), (2, 0, 1), (3, 0, 1), (4, 0, 1)]

/-- A memory cache holding none of the scenario tiles. -/
def exMemory : List (TileKey × Tile) := []

/-- A concrete viewport: 800x600 window, camera at the origin, zoom 1. -/
def exViewport : ViewportState := ⟨800, 600, 0, 0, 1⟩

/-- C8: for every fixed viewport state with nonzero zoom and every
world point, `screen_to_world` applied to `world_to_screen` of that
point returns the point itself: over the rationals the two transforms
are exact affine inverses. -/
theorem screen_world_round_trip (st : ViewportState) (hz : st.zoom ≠ 0)
    (world_x world_y : ℚ) :
    screen_to_world st (world_to_screen st world_x world_y).1
      (world_to_screen st world_x world_y).2 = (world_x, world_y) := by
  simp only [world_to_screen, screen_to_world, Prod.mk.injEq]
  constructor <;> field_simp

/-- Witness for C8 at a concrete viewport and world point. -/
theorem screen_world_round_trip_witness :
    screen_to_world ⟨800, 600, 7, -3, 2⟩
        (world_to_screen ⟨800, 600, 7, -3, 2⟩ 5 11).1
        (world_to_screen ⟨800, 600, 7, -3, 2⟩ 5 11).2 = (5, 11) :=
  screen_world_round_trip ⟨800, 600, 7, -3, 2⟩ (by norm_num) 5 11

/-- C10: for every tile coordinate, integer zoom, and viewport state,
the inlined transform of `TileRenderer.get_screen_position` agrees with
`ViewportManager.world_to_screen` applied to the tile world position
`(tile_x * 256 * (1 / 2) ^ (zoom - 1), tile_y * 256 * (1 / 2) ^ (zoom - 1))`. -/
theorem get_screen_position_refines_world_to_screen (st : ViewportState)
    (tile_x tile_y zoom : ℤ) :
    get_screen_position st tile_x tile_y zoom =
      world_to_screen st ((tile_x : ℚ) * 256 * (1 / 2 : ℚ) ^ (zoom - 1))
        ((tile_y : ℚ) * 256 * (1 / 2 : ℚ) ^ (zoom - 1)) := by
  simp only [get_screen_position, get_world_coordinates, world_to_screen]

/-- C9: for positive zoom, the zoom-split update succeeds exactly when
`zoom ≥ 1`; in particular for every `0 < zoom < 1` it raises
`ZeroDivisionError` (`int(zoom)` is 0 and `zoom % 0` divides by zero). -/
theorem update_zoom_div_by_zero (zoom : ℚ) (hz : 0 < zoom) :
    (zoom < 1 → update_zoom zoom = none) ∧
      ((update_zoom zoom).isSome ↔ 1 ≤ zoom) := by
  have htr : int_trunc zoom = ⌊zoom⌋ := by
    simp [int_trunc, le_of_lt hz]
  have hfloor : ⌊zoom⌋ = 0 ↔ zoom < 1 := by
    rw [Int.floor_eq_zero_iff]
    constructor
    · intro h
      exact h.2
    · intro h
      exact ⟨le_of_lt hz, h⟩
  constructor
  · intro hlt
    simp [update_zoom, htr, hfloor.mpr hlt]
  · by_cases h1 : 1 ≤ zoom
    · have hne : ⌊zoom⌋ ≠ 0 := by
        intro h0
        have := hfloor.mp h0
        linarith
      simp [update_zoom, htr, hne, h1]
    · push_neg at h1
      simp [update_zoom, htr, hfloor.mpr h1]
      linarith

/-- Witness for C9 at zoom one half: the update raises. -/
theorem update_zoom_div_by_zero_witness : update_zoom (1 / 2) = none :=
  (update_zoom_div_by_zero (1 / 2) (by norm_num)).1 (by norm_num)

/-- C4: `fetch_tile_data` returns the body exactly when the response
has status 200, the timestamp list grows (by the current time) exactly
when the fetch succeeded, and any failure (non-200 status or transport
error) leaves the timestamp list untouched; the function is total, so
no exception escapes. -/
theorem fetch_tile_data_spec (times : List ℚ) (now : ℚ)
    (response : Option (ℕ × Bytes)) :
    (∀ body : Bytes, (fetch_tile_data times now response).1 = some body ↔
        response = some (200, body)) ∧
      ((fetch_tile_data times now response).2 = times ++ [now] ↔
        ∃ body : Bytes, response = some (200, body)) ∧
      ((fetch_tile_data times now response).1 = none →
        (fetch_tile_data times now response).2 = times) := by
  have hlen : times ++ [now] ≠ times := by
    intro h
    have := congrArg List.length h
    simp at this
  match response with
  | none =>
    refine ⟨?_, ?_, ?_⟩
    · intro body
      simp [fetch_tile_data]
    · simp [fetch_tile_data, hlen]
    · intro _
      rfl
  | some (status, body0) =>
    by_cases h200 : status = 200
    · subst h200
      refine ⟨?_, ?_, ?_⟩
      · intro body
        simp [fetch_tile_data]
      · simp [fetch_tile_data]
      · intro habs
        simp [fetch_tile_data] at habs
    · refine ⟨?_, ?_, ?_⟩
      · intro body
        simp only [fetch_tile_data, if_neg h200, Option.some.injEq, Prod.mk.injEq]
        constructor
        · intro h
          exact absurd h (by simp)
        · intro h
          exact absurd h.1 h200
      · simp only [fetch_tile_data, if_neg h200]
        constructor
        · intro h
          exact absurd h.symm hlen
        · rintro ⟨body, h⟩
          injection h with h
          exact absurd (congrArg Prod.fst h) h200
      · intro _
        simp only [fetch_tile_data, if_neg h200]

/-- Witness for C4: an HTTP 404 response yields no data, and since the
result is `none` the timestamp list is unchanged. -/
theorem fetch_tile_data_spec_witness :
    (fetch_tile_data [] 0 (some (404, []))).1 = none ∧
      (fetch_tile_data [] 0 (some (404, []))).2 = [] :=
  ⟨by decide, (fetch_tile_data_spec [] 0 (some (404, []))).2.2 (by decide)⟩

/-- C5: `is_rate_limited` returns `true` exactly when at least the
ceiling many recorded timestamps lie within the trailing one-second
window, and the pruned list it stores back contains exactly the
timestamps of the window: nothing a second old or older survives, and
everything inside the window is kept. -/
theorem is_rate_limited_spec (times : List ℚ) (now : ℚ) (maxr : ℕ) :
    ((is_rate_limited times now maxr).1 = true ↔
        maxr ≤ times.countP (fun t => decide (now - t < 1))) ∧
      (∀ t ∈ (is_rate_limited times now maxr).2, now - t < 1) ∧
      (∀ t ∈ times, now - t < 1 → t ∈ (is_rate_limited times now maxr).2) := by
  refine ⟨?_, ?_, ?_⟩
  · simp [is_rate_limited, List.countP_eq_length_filter]
  · intro t ht
    simp only [is_rate_limited, List.mem_filter, decide_eq_true_eq] at ht
    exact ht.2
  · intro t ht hwin
    simp only [is_rate_limited, List.mem_filter, decide_eq_true_eq]
    exact ⟨ht, hwin⟩

/-- Witness for C5: with timestamps 0 and 2 at time 2, the stale
timestamp 0 is pruned, the in-window timestamp 2 is kept, and with
ceiling 2 the fetcher is not rate limited. -/
theorem is_rate_limited_spec_witness :
    (2 : ℚ) ∈ (is_rate_limited [0, 2] 2 2).2 ∧
      (0 : ℚ) ∉ (is_rate_limited [0, 2] 2 2).2 ∧
      (is_rate_limited [0, 2] 2 2).1 = false :=
  ⟨(is_rate_limited_spec [0, 2] 2 2).2.2 2 (by norm_num) (by norm_num),
   by norm_num [is_rate_limited], by norm_num [is_rate_limited]⟩

/-- Counterexample to C2: with bytes that decode perfectly well
(`decode` totally succeeds) but a failing disk write, `save_to_cache`
returns `None` — not the decoded tile — and the memory cache stays
empty, because the decode and memory insert sit in the same `try` block
after the disk write and are skipped when it raises. -/
theorem save_to_cache_disk_failure_cex :
    (save_to_cache (fun _ => some 7) false emptyCache (5, 5, 3) [1, 2, 3]).1 = none ∧
      (save_to_cache (fun _ => some 7) false emptyCache (5, 5, 3) [1, 2, 3]).2.memory
        = [] :=
  ⟨rfl, rfl⟩

/-- C2 (amended): when the disk write raises, `save_to_cache` returns
`None` and leaves the cache state unchanged (memory cache not
populated); the decoded tile is returned and mirrored into the memory
cache only when the disk write succeeds and the bytes decode. -/
theorem save_to_cache_spec (decode : Bytes → Option Tile) (st : CacheState)
    (k : TileKey) (data : Bytes) (img : Tile) (hdec : decode data = some img) :
    save_to_cache decode false st k data = (none, st) ∧
      (save_to_cache decode true st k data).1 = some img ∧
      get_from_memory (save_to_cache decode true st k data).2 k = some img := by
  refine ⟨rfl, ?_, ?_⟩
  · simp [save_to_cache, hdec]
  · simp [save_to_cache, hdec, get_from_memory, alist_lookup]

/-- Witness for C2 (amended) at a concrete decoder, key and payload. -/
theorem save_to_cache_spec_witness :
    save_to_cache (fun _ => some 7) false emptyCache (5, 5, 3) [1, 2, 3]
        = (none, emptyCache) ∧
      (save_to_cache (fun _ => some 7) true emptyCache (5, 5, 3) [1, 2, 3]).1
        = some 7 ∧
      get_from_memory
          (save_to_cache (fun _ => some 7) true emptyCache (5, 5, 3) [1, 2, 3]).2
          (5, 5, 3) = some 7 :=
  save_to_cache_spec (fun _ => some 7) emptyCache (5, 5, 3) [1, 2, 3] 7 rfl

/-- C6: on a tile key absent from memory whose disk file decodes, the
lookup of `MapManager.fetch_tile` consults the disk tier, returns the
decoded image, and inserts it into the memory cache; looking the same
key up again is a memory hit that touches neither the disk tier nor the
state. -/
theorem fetch_tile_lookup_disk_hit (decode : Bytes → Option Tile)
    (st : CacheState) (k : TileKey) (data : Bytes) (img : Tile)
    (hmem : get_from_memory st k = none)
    (hdisk : alist_lookup st.disk k = some data)
    (hdec : decode data = some img) :
    (fetch_tile_lookup decode st k).1 = some img ∧
      (fetch_tile_lookup decode st k).2.2 = true ∧
      get_from_memory (fetch_tile_lookup decode st k).2.1 k = some img ∧
      fetch_tile_lookup decode (fetch_tile_lookup decode st k).2.1 k
        = (some img, (fetch_tile_lookup decode st k).2.1, false) := by
  have hstep : fetch_tile_lookup decode st k
      = (some img, { st with memory := (k, img) :: st.memory }, true) := by
    simp [fetch_tile_lookup, hmem, get_from_disk, hdisk, hdec]
  have hmem2 : get_from_memory { st with memory := (k, img) :: st.memory } k
      = some img := by
    simp [get_from_memory, alist_lookup]
  refine ⟨?_, ?_, ?_, ?_⟩
  · rw [hstep]
  · rw [hstep]
  · rw [hstep]
    exact hmem2
  · rw [hstep]
    simp [fetch_tile_lookup, hmem2]

/-- Witness for C6: key (5, 5, 3) on disk, memory empty, decodable
bytes — the lookup returns the image, the key becomes a memory hit, and
the repeat lookup skips the disk tier. -/
theorem fetch_tile_lookup_disk_hit_witness :
    (fetch_tile_lookup (fun d => if d = [1] then some 9 else none)
        ⟨[], [((5, 5, 3), [1])]⟩ (5, 5, 3)).1 = some 9 ∧
      get_from_memory
          (fetch_tile_lookup (fun d => if d = [1] then some 9 else none)
            ⟨[], [((5, 5, 3), [1])]⟩ (5, 5, 3)).2.1 (5, 5, 3) = some 9 :=
  ⟨(fetch_tile_lookup_disk_hit (fun d => if d = [1] then some 9 else none)
      ⟨[], [((5, 5, 3), [1])]⟩ (5, 5, 3) [1] 9 rfl rfl rfl).1,
   (fetch_tile_lookup_disk_hit (fun d => if d = [1] then some 9 else none)
      ⟨[], [((5, 5, 3), [1])]⟩ (5, 5, 3) [1] 9 rfl rfl rfl).2.2.1⟩

/-- Unfolding of the double preload loop into its nine insertions
(`dy` outer, `dx` inner, so the last key inserted is the south-east
neighbor). -/
theorem preload_surrounding_tiles_eq (queue : Finset TileKey) (cx cy zoom : ℤ) :
    preload_surrounding_tiles queue cx cy zoom =
      insert (cx + 1, cy + 1, zoom) (insert (cx + 0, cy + 1, zoom)
        (insert (cx + -1, cy + 1, zoom) (insert (cx + 1, cy + 0, zoom)
          (insert (cx + 0, cy + 0, zoom) (insert (cx + -1, cy + 0, zoom)
            (insert (cx + 1, cy + -1, zoom) (insert (cx + 0, cy + -1, zoom)
              (insert (cx + -1, cy + -1, zoom) queue)))))))) := rfl

set_option maxHeartbeats 1000000 in
/-- Counterexample to C3: starting from an empty queue at center
(0, 0) and zoom 1, the preload enqueues nine tiles, among them the
center (0, 0, 1) itself — not the eight neighbors only. -/
theorem preload_surrounding_tiles_cex :
    (0, 0, 1) ∈ preload_surrounding_tiles ∅ 0 0 1 ∧
      (preload_surrounding_tiles ∅ 0 0 1).card = 9 := by
  constructor <;> decide

/-- C3 (amended): `preload_surrounding_tiles` enqueues exactly the full
3×3 block of tiles around the center — center included, nine tiles —
at the given zoom: a key is in the resulting queue iff it was already
queued or lies in that block. -/
theorem preload_surrounding_tiles_spec (queue : Finset TileKey)
    (cx cy zoom : ℤ) (k : TileKey) :
    k ∈ preload_surrounding_tiles queue cx cy zoom ↔
      k ∈ queue ∨
        (cx - 1 ≤ k.1 ∧ k.1 ≤ cx + 1 ∧ cy - 1 ≤ k.2.1 ∧ k.2.1 ≤ cy + 1 ∧
          k.2.2 = zoom) := by
  obtain ⟨x, y, z⟩ := k
  rw [preload_surrounding_tiles_eq]
  simp only [Finset.mem_insert, Prod.mk.injEq]
  constructor
  · intro h
    rcases h with h | h | h | h | h | h | h | h | h | h
    all_goals first
      | exact Or.inl h
      | exact Or.inr (by omega)
  · intro h
    rcases h with h | h
    · simp [h]
    · have h9 : (x = cx + 1 ∧ y = cy + 1 ∧ z = zoom) ∨
          (x = cx + 0 ∧ y = cy + 1 ∧ z = zoom) ∨
          (x = cx + -1 ∧ y = cy + 1 ∧ z = zoom) ∨
          (x = cx + 1 ∧ y = cy + 0 ∧ z = zoom) ∨
          (x = cx + 0 ∧ y = cy + 0 ∧ z = zoom) ∨
          (x = cx + -1 ∧ y = cy + 0 ∧ z = zoom) ∨
          (x = cx + 1 ∧ y = cy + -1 ∧ z = zoom) ∨
          (x = cx + 0 ∧ y = cy + -1 ∧ z = zoom) ∨
          (x = cx + -1 ∧ y = cy + -1 ∧ z = zoom) := by omega
      rcases h9 with h | h | h | h | h | h | h | h | h <;>
        simp [h.1, h.2.1, h.2.2]

/-- Every task of a batch completes no later than the batch gather. -/
theorem le_gather_completion_time (batch : List TileTask) :
    ∀ task ∈ batch, task.time ≤ gather_completion_time batch := by
  induction batch with
  | nil =>
    intro task h
    exact absurd h (List.not_mem_nil task)
  | cons hd tl ih =>
    intro task h
    rcases List.mem_cons.mp h with h | h
    · subst h
      exact le_max_left _ _
    · exact le_trans (ih task h) (le_max_right _ _)

/-- If any task of the batch outlives the timeout, the batch future
times out and the frame renders none of the batch. -/
theorem handle_timeout_renders_nothing (batch : List TileTask) (timeout : ℚ)
    (h : ∃ task ∈ batch, timeout < task.time) :
    handle_async_tile_loading batch timeout = [] := by
  obtain ⟨task, hmem, hlate⟩ := h
  have hle := le_gather_completion_time batch task hmem
  have hgt : ¬ gather_completion_time batch ≤ timeout := by
    intro hc
    exact absurd (le_trans hle hc) (not_le.mpr hlate)
  simp [handle_async_tile_loading, future_result, if_neg hgt]

/-- Counterexample to C1: in the scenario-D batch, three of the five
tiles resolve within the 10 ms deadline (with surfaces), yet the frame
renders nothing at all, not exactly those three: the batch future is
all-or-nothing, so the resolved tiles are dropped along with the
pending ones. -/
theorem handle_async_dropped_batch_cex :
    (exBatch.filter (fun task => decide (task.time ≤ TILE_LOAD_TIMEOUT))).map
        TileTask.coord = [(0, 0, 1), (1, 0, 1), (2, 0, 1)] ∧
      exBatch.length = 5 ∧
      handle_async_tile_loading exBatch TILE_LOAD_TIMEOUT = [] := by
  refine ⟨?_, rfl, ?_⟩
  · norm_num [exBatch, TILE_LOAD_TIMEOUT, List.filter_cons]
  · refine handle_timeout_renders_nothing exBatch TILE_LOAD_TIMEOUT
      ⟨⟨(3, 0, 1), 2 / 100, none⟩, ?_, ?_⟩
    · norm_num [exBatch]
    · norm_num [TILE_LOAD_TIMEOUT]

/-- C1 (amended): per-frame batch loading is all-or-nothing.  If the
per-frame timeout elapses with any batched tile unresolved, the frame
renders none of the batch (the resolved tiles included); no tile is
marked failed — the frame state the next frame consults is only the
memory cache — and every batched tile still absent from the memory
cache is requested again on the following frame as an ordinary cache
miss. -/
theorem handle_async_all_or_nothing (batch : List TileTask) (timeout : ℚ)
    (visible : List TileKey) (memory : List (TileKey × Tile))
    (h : ∃ task ∈ batch, timeout < task.time) :
    handle_async_tile_loading batch timeout = [] ∧
      ∀ task ∈ batch, task.coord ∈ visible → alist_lookup memory task.coord = none →
        task.coord ∈ frame_tiles_to_load visible memory := by
  refine ⟨handle_timeout_renders_nothing batch timeout h, ?_⟩
  intro task _ hvis hmiss
  simp only [frame_tiles_to_load, List.mem_filter]
  exact ⟨hvis, by simp [hmiss]⟩

/-- Witness for C1 (amended) on the scenario-D batch: the timeout is
exceeded, nothing is rendered, and the pending tile (3, 0, 1) is in the
load batch of the next frame. -/
theorem handle_async_all_or_nothing_witness :
    handle_async_tile_loading exBatch TILE_LOAD_TIMEOUT = [] ∧
      ((3 : ℤ), (0 : ℤ), (1 : ℤ)) ∈ frame_tiles_to_load exVisible exMemory := by
  have h : ∃ task ∈ exBatch, TILE_LOAD_TIMEOUT < task.time :=
    ⟨⟨(3, 0, 1), 2 / 100, none⟩, by norm_num [exBatch], by norm_num [TILE_LOAD_TIMEOUT]⟩
  have main := handle_async_all_or_nothing exBatch TILE_LOAD_TIMEOUT
    exVisible exMemory h
  refine ⟨main.1, ?_⟩
  refine main.2 ⟨(3, 0, 1), 2 / 100, none⟩ (by norm_num [exBatch]) ?_ ?_
  · norm_num [exVisible]
  · norm_num [exMemory, alist_lookup]

/-- Membership in the integer range `range(a, b)`. -/
theorem mem_intRange (a b x : ℤ) : x ∈ intRange a b ↔ a ≤ x ∧ x < b := by
  simp only [intRange, List.mem_map, List.mem_range]
  constructor
  · rintro ⟨i, hi, rfl⟩
    omega
  · intro h
    exact ⟨(x - a).toNat, by omega, by omega⟩

/-- Membership in the visible tile list: the key lies in the computed
tile rectangle and carries the requested zoom. -/
theorem mem_calculate_visible_tiles (st : ViewportState) (tile_zoom buffer : ℤ)
    (x y z : ℤ) :
    (x, y, z) ∈ calculate_visible_tiles st tile_zoom buffer ↔
      ((visible_tile_range st tile_zoom buffer).1 ≤ x ∧
        x < (visible_tile_range st tile_zoom buffer).2.2.1 ∧
        (visible_tile_range st tile_zoom buffer).2.1 ≤ y ∧
        y < (visible_tile_range st tile_zoom buffer).2.2.2 ∧
        z = tile_zoom) := by
  simp only [calculate_visible_tiles, List.mem_bind, List.mem_map, mem_intRange,
    Prod.mk.injEq]
  constructor
  · rintro ⟨y0, hy0, x0, hx0, hxx, hyy, hzz⟩
    subst hxx
    subst hyy
    subst hzz
    exact ⟨hx0.1, hx0.2, hy0.1, hy0.2, rfl⟩
  · rintro ⟨h1, h2, h3, h4, h5⟩
    subst h5
    exact ⟨y, ⟨h3, h4⟩, x, ⟨h1, h2⟩, rfl, rfl, rfl⟩

/-- C7: for every viewport (nonnegative window, positive zoom) and
every tile zoom at least 1, the buffered tile rectangle of
`calculate_visible_tiles` is wider and taller than the unbuffered one
(the same computation with buffer 0) by exactly `2 * BUFFER_TILES = 4`
tiles per axis, contains every unbuffered tile, and strictly exceeds
it: some buffered tile is not an unbuffered one. -/
theorem calculate_visible_tiles_buffer_spec (st : ViewportState) (tile_zoom : ℤ)
    (hw : 0 ≤ st.width) (hh : 0 ≤ st.height) (hz : 0 < st.zoom)
    (htz : 1 ≤ tile_zoom) :
    (range_width (visible_tile_range st tile_zoom BUFFER_TILES)
        = range_width (visible_tile_range st tile_zoom 0) + 2 * BUFFER_TILES ∧
      range_height (visible_tile_range st tile_zoom BUFFER_TILES)
        = range_height (visible_tile_range st tile_zoom 0) + 2 * BUFFER_TILES) ∧
      (∀ p ∈ calculate_visible_tiles st tile_zoom 0,
        p ∈ calculate_visible_tiles st tile_zoom BUFFER_TILES) ∧
      (∃ p ∈ calculate_visible_tiles st tile_zoom BUFFER_TILES,
        p ∉ calculate_visible_tiles st tile_zoom 0) := by
  have hts : (0 : ℚ) < get_tile_size 256 tile_zoom := by
    have h2 : (0 : ℚ) < (1 / 2 : ℚ) ^ (tile_zoom - 1) := by positivity
    simp only [get_tile_size]
    positivity
  have hlr : (visible_bounds st).1 ≤ (visible_bounds st).2.2.1 := by
    simp only [visible_bounds]
    have : 0 ≤ st.width / st.zoom := div_nonneg hw (le_of_lt hz)
    linarith
  have htb : (visible_bounds st).2.1 ≤ (visible_bounds st).2.2.2 := by
    simp only [visible_bounds]
    have : 0 ≤ st.height / st.zoom := div_nonneg hh (le_of_lt hz)
    linarith
  have hx0 : ⌊(visible_bounds st).1 / get_tile_size 256 tile_zoom⌋
      ≤ ⌈(visible_bounds st).2.2.1 / get_tile_size 256 tile_zoom⌉ := by
    refine le_trans (Int.floor_mono ?_) (Int.floor_le_ceil _)
    gcongr
  have hy0 : ⌊(visible_bounds st).2.1 / get_tile_size 256 tile_zoom⌋
      ≤ ⌈(visible_bounds st).2.2.2 / get_tile_size 256 tile_zoom⌉ := by
    refine le_trans (Int.floor_mono ?_) (Int.floor_le_ceil _)
    gcongr
  refine ⟨⟨?_, ?_⟩, ?_, ?_⟩
  · simp only [range_width, visible_tile_range, BUFFER_TILES]
    ring
  · simp only [range_height, visible_tile_range, BUFFER_TILES]
    ring
  · intro p hp
    obtain ⟨x, y, z⟩ := p
    rw [mem_calculate_visible_tiles] at hp
    rw [mem_calculate_visible_tiles]
    simp only [visible_tile_range, BUFFER_TILES] at hp
    simp only [visible_tile_range, BUFFER_TILES]
    omega
  · refine ⟨(⌊(visible_bounds st).1 / get_tile_size 256 tile_zoom⌋ - 1,
      ⌊(visible_bounds st).2.1 / get_tile_size 256 tile_zoom⌋, tile_zoom), ?_, ?_⟩
    · rw [mem_calculate_visible_tiles]
      simp only [visible_tile_range, BUFFER_TILES, and_true]
      omega
    · rw [mem_calculate_visible_tiles]
      simp only [visible_tile_range, BUFFER_TILES, and_true]
      omega

/-- Witness for C7 at a concrete 800x600 viewport, zoom 1, tile zoom 1:
the buffered rectangle is four tiles wider than the unbuffered one. -/
theorem calculate_visible_tiles_buffer_spec_witness :
    range_width (visible_tile_range exViewport 1 BUFFER_TILES)
        = range_width (visible_tile_range exViewport 1 0) + 2 * BUFFER_TILES ∧
      range_height (visible_tile_range exViewport 1 BUFFER_TILES)
        = range_height (visible_tile_range exViewport 1 0) + 2 * BUFFER_TILES :=
  (calculate_visible_tiles_buffer_spec exViewport 1 (by norm_num [exViewport])
    (by norm_num [exViewport]) (by norm_num [exViewport]) (by norm_num)).1
